import Mathlib

/-!
spire-credentialcomposer-cel: the CEL credential composer plugin.

A shallow embedding of `cmd/main.go`: the builtin `mapOverrideEntries`, the
configuration store (`Configure`, `setConfig`, `getConfig`) and
`ComposeWorkloadJWTSVID`, followed by the properties of them.

cel-go, hcl, the plugin SDK and the operating system are not part of the
repository.  Their values are modelled by the types below, and each call into
them is a field of `Host`.
-/

namespace CelComposer

/-! ## Values -/

/-- A 64-bit pattern read as an IEEE 754 double: whether it is a NaN. -/
def isNaN (bits : Nat) : Bool :=
  bits / 2 ^ 52 % 2 ^ 11 == 2047 && bits % 2 ^ 52 != 0

/-- Whether the double is a zero, of either sign. -/
def isZero (bits : Nat) : Bool := bits % 2 ^ 63 == 0

/-- Go's `==` on two float64: a NaN equals nothing, itself included, and the
two zeros are equal. -/
def doubleEq (a b : Nat) : Bool :=
  !isNaN a && !isNaN b && (a == b || (isZero a && isZero b))

/-- The integer a double equals, when it is finite and has no fraction. -/
def doubleInteger (bits : Nat) : Option Int :=
  let e := bits / 2 ^ 52 % 2 ^ 11
  let m := bits % 2 ^ 52
  let sign : Int := if bits / 2 ^ 63 % 2 = 1 then -1 else 1
  if e = 2047 then none
  else if e = 0 then (if m = 0 then some 0 else none)
  else if 1075 ≤ e then some (sign * ((2 ^ 52 + m) * 2 ^ (e - 1075) : Nat))
  else if (2 ^ 52 + m) % 2 ^ (1075 - e) = 0 then
    some (sign * ((2 ^ 52 + m) / 2 ^ (1075 - e) : Nat))
  else none

/-- The cel-go helper `doubleToInt64Lossless`: the int64 equal to the double,
if there is one strictly between the least and the greatest int64. -/
def doubleToInt64Lossless (bits : Nat) : Option Int :=
  match doubleInteger bits with
  | some i => if -(2 ^ 63 : Int) < i ∧ i < 2 ^ 63 then some i else none
  | none => none

/-- The cel-go helper `doubleToUint64Lossless`: the uint64 equal to the
double, if there is one. -/
def doubleToUint64Lossless (bits : Nat) : Option Nat :=
  match doubleInteger bits with
  | some i => if 0 ≤ i ∧ i < 2 ^ 64 then some i.toNat else none
  | none => none

/-- The cel-go helper `int64ToUint64Lossless`. -/
def int64ToUint64Lossless (i : Int) : Option Nat :=
  if 0 ≤ i then some i.toNat else none

/-- The cel-go helper `uint64ToInt64Lossless`. -/
def uint64ToInt64Lossless (n : Nat) : Option Int :=
  if n < 2 ^ 63 then some (n : Int) else none

/-- A value as the key of a Go `map[ref.Val]ref.Val`: every kind of `ref.Val`
that Go can hash.  Null, bool, int, uint, double and string are held by value;
`ref` is a value held by pointer (a list, a map, an object, an error), of which
a Go map looks at the address only.  A byte string cannot be hashed, so no map
holds one as a key. -/
inductive Key where
  | null
  | bool (b : Bool)
  | int (i : Int)
  | uint (n : Nat)
  | double (bits : Nat)
  | string (s : String)
  | ref (addr : Nat)
  deriving DecidableEq, Repr

/-- Go's `==` on two keys, which decides whether they are one entry of a map:
the same kind and equal content, doubles compared as `doubleEq` does. -/
def Key.same : Key → Key → Bool
  | .double a, .double b => doubleEq a b
  | a, b => decide (a = b)

/-- Modelled from the spec: the dynamically typed value, the tagged union of
section 3, which stands for the interface `ref.Val` of cel-go (declared outside
this repository).  A map is held as its entries; the position of an entry in
the list carries no meaning.  An error is held as the format and the arguments
`types.NewErr` was given. -/
inductive Val where
  | null
  | bool (b : Bool)
  | int (i : Int)
  | uint (n : Nat)
  | double (bits : Nat)
  | string (s : String)
  | bytes (b : List Nat)
  | list (xs : List Val)
  | map (entries : List (Key × Val))
  | object (typeName : String) (payload : List Nat)
  | err (format : String) (args : List Key)

/-- A Go `map[ref.Val]ref.Val`, and the entries behind a `traits.Mapper`. -/
abbrev GoMap := List (Key × Val)

namespace GoMap

/-- The keys a map holds, in the order its iterator yields them. -/
def keys (m : GoMap) : List Key := m.map Prod.fst

/-- The two-result lookup `v, found := m[k]` of Go. -/
def find : GoMap → Key → Option Val
  | [], _ => none
  | (k2, v) :: rest, k => if k2.same k then some v else find rest k

/-- The assignment `m[k] = v` of Go: when an entry has the same key, `k` and
`v` take its place (a map keyed by an interface stores the new key too);
otherwise an entry is added. -/
def set : GoMap → Key → Val → GoMap
  | [], k, v => [(k, v)]
  | (k2, v2) :: rest, k, v =>
    if k2.same k then (k, v) :: rest else (k2, v2) :: set rest k v

/-- The result of `Size()`: the number of entries. -/
def size (m : GoMap) : Nat := m.length

/-- The method `Find` of a cel-go map over a `map[ref.Val]ref.Val`: the Go
lookup first; when it misses, a double key is tried as the int and then as the
uint it equals, an int key as the uint it equals, a uint key as the int it
equals. -/
def Find (m : GoMap) (key : Key) : Option Val :=
  match m.find key with
  | some v => some v
  | none =>
    match key with
    | .double bits =>
      match (doubleToInt64Lossless bits).bind (fun ik => m.find (.int ik)) with
      | some v => some v
      | none => (doubleToUint64Lossless bits).bind (fun uk => m.find (.uint uk))
    | .int i => (int64ToUint64Lossless i).bind (fun uk => m.find (.uint uk))
    | .uint n => (uint64ToInt64Lossless n).bind (fun ik => m.find (.int ik))
    | _ => none

/-- No two entries are under the same key: what holds of every Go map. -/
def WellKeyed (m : GoMap) : Prop := m.keys.Pairwise (fun a b => a.same b = false)

/-- No key is a NaN, that is every key equals itself. -/
def NoNaN (m : GoMap) : Prop := ∀ k ∈ m.keys, k.same k = true

instance (m : GoMap) : Decidable (WellKeyed m) := by
  unfold WellKeyed; infer_instance

instance (m : GoMap) : Decidable (NoNaN m) := by
  unfold NoNaN; infer_instance

end GoMap

/-- The cel-go helper `types.ValOrErr(val, format, args...)`: an error value
is passed through, anything else (nil included) becomes a new error made from
the format and the arguments. -/
def ValOrErr (val : Option Val) (format : String) (args : List Key) : Val :=
  match val with
  | some (.err f a) => .err f a
  | _ => .err format args

/-- The method `Get` of a cel-go map: the value `Find` finds, or the error
value "no such key: %v" of the key. -/
def Get (mapper : GoMap) (key : Key) : Val :=
  match mapper.Find key with
  | some v => v
  | none => ValOrErr none "no such key: %v" [key]

/-- The type assertion `v.(traits.Mapper)`: only map values are mappers. -/
def asMapper : Val → Option GoMap
  | .map entries => some entries
  | _ => none

/-- The call `types.DefaultTypeAdapter.NativeToValue(copy)` on a
`map[ref.Val]ref.Val`: the CEL map over those entries. -/
def NativeToValue (copy : GoMap) : Val := .map copy

/-- One of the two loops of `mapOverrideEntries` (lines 198-203 and 208-213):
for every key the iterator yields, `copy[nextK] = mapper.Get(nextK)`. -/
def copyEntries (mapper : GoMap) (copy : GoMap) : GoMap :=
  mapper.keys.foldl (fun c nextK => c.set nextK (Get mapper nextK)) copy

/-- The builtin `mapOverrideEntries(args ...ref.Val)` of `cmd/main.go`.
`none` is the index-out-of-range panic of `args[0]` and `args[1]`. -/
def mapOverrideEntries (args : List Val) : Option Val :=
  match args with
  | lhs :: rhs :: _ =>
    let copy : GoMap := []
    match asMapper lhs with
    | none => some (ValOrErr none "unsupported lhs type" [])
    | some mapper =>
      let copy := copyEntries mapper copy
      match asMapper rhs with
      | none => some (ValOrErr none "unsupported rhs type" [])
      | some mapper =>
        let copy := copyEntries mapper copy
        some (NativeToValue copy)
  | _ => none

/-- Go's `range` over a map (which the iterator of a cel-go map uses) visits
every entry once, in an order the language leaves unspecified and that may
differ from one iteration to the next: `ks` is a possible enumeration of the
keys of `m`. -/
def Enumerates (ks : List Key) (m : GoMap) : Prop := ks.Perm m.keys

instance (ks : List Key) (m : GoMap) : Decidable (Enumerates ks m) := by
  unfold Enumerates; infer_instance

/-- The bits of the NaN that `math.NaN()` returns. -/
def nanBits : Nat := 0x7FF8000000000001

/-! ## The plugin -/

/-- The gRPC status codes `cmd/main.go` uses. -/
inductive Code where
  | InvalidArgument
  | FailedPrecondition
  | Unimplemented
  deriving DecidableEq, Repr

/-- An error made by `status.Error` or `status.Errorf`. -/
structure Status where
  code : Code
  message : String
  deriving DecidableEq, Repr

/-- The call `status.Errorf(code, "text: %v", err)`, the text already
formatted. -/
def Errorf (code : Code) (message : String) : Status := ⟨code, message⟩

/-- The struct `ConfigJWT`; `prg` is the compiled `cel.Program`. -/
structure ConfigJWT (Prg : Type) where
  ExpressionString : Option String
  ExpressionPath : Option String
  prg : Prg

/-- The struct `Config`. -/
structure Config (Prg : Type) where
  JWT : ConfigJWT Prg
  trustDomain : String
  spiffeTrustDomain : String

/-- The struct `Plugin`: `config` is the pointer `p.config`, `none` for nil.
The mutex guards every access and has no state of its own here; the logger is
the one the SDK sets through `SetLogger`. -/
structure Plugin (Prg : Type) where
  config : Option (Config Prg)

/-- The plugin `main` creates: `new(Plugin)`. -/
def Plugin.new (Prg : Type) : Plugin Prg := ⟨none⟩

/-- The message `CoreConfiguration` of the config service. -/
structure CoreConfiguration where
  TrustDomain : String

/-- The message `ConfigureRequest`; the host always fills in the core
configuration. -/
structure ConfigureRequest where
  CoreConfiguration : CoreConfiguration
  HclConfiguration : String

/-- The message `ConfigureResponse`, which has no field. -/
structure ConfigureResponse where
  deriving DecidableEq, Repr

/-- An open file, as `os.Open` returns it. -/
structure File where
  fd : Nat
  deriving DecidableEq, Repr

/-- The `*cel.Issues` a compile reports; `Err` is the method `Err()`. -/
structure Issues where
  Err : Option String

/-- The variables `ComposeWorkloadJWTSVID` binds for an evaluation. -/
structure Activation (Req : Type) where
  trust_domain : String
  spiffe_trust_domain : String
  request : Req

/-- The `any` that `ConvertToNative` returns: nil, a response message, or a
value of some other Go type. -/
inductive Native (Resp : Type) where
  | nil
  | response (r : Resp)
  | other

/-- The type assertion `respn.(*ComposeWorkloadJWTSVIDResponse)` with its
second result dropped: the response, or a nil pointer. -/
def asResponse {Resp : Type} : Native Resp → Option Resp
  | .response r => some r
  | _ => none

/-- What the plugin calls outside the repository: the HCL decoder (the two
fields it can set), the file system, and cel-go (environment, compiler,
program builder, evaluation, conversion of the result). -/
structure Host (Env Ast Prg Req Resp : Type) where
  hclDecode : String → Except String (Option String × Option String)
  osOpen : String → Except String File
  ioReadAll : File → Except String String
  celNewEnv : Except String Env
  Compile : Env → String → Ast × Option Issues
  Program : Env → Ast → Except String Prg
  Eval : Prg → Activation Req → Except String Val
  ConvertToNative : Val → Except String (Native Resp)

section Plugin

variable {Env Ast Prg Req Resp : Type}

/-- The method `setConfig`. -/
def setConfig (p : Plugin Prg) (config : Config Prg) : Plugin Prg :=
  { p with config := some config }

/-- The method `getConfig`. -/
def getConfig (p : Plugin Prg) : Except Status (Config Prg) :=
  match p.config with
  | none => .error ⟨.FailedPrecondition, "not configured"⟩
  | some config => .ok config

/-- Lines 64-83 of `Configure`: the guard on the two decoded fields, and the
expression text the call goes on with (the content of the file when a path is
given, the inline string otherwise). -/
def expressionSource (h : Host Env Ast Prg Req Resp)
    (ExpressionString ExpressionPath : Option String) : Except Status String :=
  match ExpressionString, ExpressionPath with
  | none, none =>
    .error (Errorf .InvalidArgument
      "you must have jwt.expression_string or jwt.expression_path defined.")
  | some str, none => .ok str
  | _, some path =>
    match h.osOpen path with
    | .error err => .error (Errorf .InvalidArgument ("Error opening file: " ++ err))
    | .ok file =>
      match h.ioReadAll file with
      | .error err => .error (Errorf .InvalidArgument ("Error reading file: " ++ err))
      | .ok data => .ok data

/-- The condition `issues != nil && issues.Err() != nil` of line 117, with the
error it holds. -/
def compileError (issues : Option Issues) : Option String :=
  match issues with
  | none => none
  | some i => i.Err

/-- The method `Configure`: the two results it returns, and the plugin after
the call. -/
def Configure (h : Host Env Ast Prg Req Resp) (p : Plugin Prg) (req : ConfigureRequest) :
    (Option ConfigureResponse × Option Status) × Plugin Prg :=
  let trustDomain := req.CoreConfiguration.TrustDomain
  let spiffeTrustDomain := "spiffe://" ++ trustDomain
  match h.hclDecode req.HclConfiguration with
  | .error err =>
    ((none, some (Errorf .InvalidArgument ("failed to decode configuration: " ++ err))), p)
  | .ok (ExpressionString, ExpressionPath) =>
    match expressionSource h ExpressionString ExpressionPath with
    | .error st => ((none, some st), p)
    | .ok str =>
      match h.celNewEnv with
      | .error err =>
        ((none, some (Errorf .InvalidArgument ("Failed to load cel environment: " ++ err))), p)
      | .ok env =>
        let (ast, issues) := h.Compile env str
        match compileError issues with
        | some err =>
          ((none, some (Errorf .InvalidArgument ("Failed to compile cel expression: " ++ err))), p)
        | none =>
          match h.Program env ast with
          | .error err =>
            ((none, some (Errorf .InvalidArgument ("Failed to build cel program: " ++ err))), p)
          | .ok prg =>
            let config : Config Prg :=
              ⟨⟨some str, ExpressionPath, prg⟩, trustDomain, spiffeTrustDomain⟩
            ((some ⟨⟩, none), setConfig p config)

/-- A call `ComposeWorkloadJWTSVID` makes on the way, in order. -/
inductive Call where
  | Debug (msg : String)
  | Eval
  | ConvertToNative
  deriving DecidableEq, Repr

/-- The method `ComposeWorkloadJWTSVID`: the two results it returns, and the
calls it made to the logger and to cel-go. -/
def ComposeWorkloadJWTSVID (h : Host Env Ast Prg Req Resp) (p : Plugin Prg) (req : Req) :
    (Option Resp × Option Status) × List Call :=
  match getConfig p with
  | .error err => ((none, some err), [])
  | .ok config =>
    match h.Eval config.JWT.prg
        ⟨config.trustDomain, config.spiffeTrustDomain, req⟩ with
    | .error err =>
      ((none, some (Errorf .InvalidArgument ("Failed to evaluate cel expression: " ++ err))),
        [.Debug "JWT rewrite request", .Eval])
    | .ok out =>
      match h.ConvertToNative out with
      | .error err =>
        ((none, some (Errorf .InvalidArgument ("Failed to parse return type: " ++ err))),
          [.Debug "JWT rewrite request", .Eval, .ConvertToNative])
      | .ok respn =>
        ((asResponse respn, none),
          [.Debug "JWT rewrite request", .Eval, .ConvertToNative,
            .Debug "JWT rewrite response"])

/-- A history of `Configure` calls, each with the host as it was at that call:
the error each call returned, and the plugin after the last one. -/
def configureAll (p : Plugin Prg) :
    List (Host Env Ast Prg Req Resp × ConfigureRequest) → List (Option Status) × Plugin Prg
  | [] => ([], p)
  | (h, req) :: rest =>
    let r := Configure h p req
    let t := configureAll r.2 rest
    (r.1.2 :: t.1, t.2)

end Plugin

/-- A host for the examples: five configuration documents, one readable file,
a compiler that accepts only the expression "request", an evaluation that
fails on the empty request and else returns a string value or, for the request
"map", a map value, and a conversion that accepts a string value. -/
def exampleHost : Host Unit String String String String where
  hclDecode doc :=
    if doc = "empty" then .ok (none, none)
    else if doc = "inline" then .ok (some "request", none)
    else if doc = "inline-bad" then .ok (some "request +", none)
    else if doc = "file" then .ok (none, some "/etc/expr.cel")
    else if doc = "both" then .ok (some "request +", some "/etc/expr.cel")
    else .error "parse error"
  osOpen path := if path = "/etc/expr.cel" then .ok ⟨3⟩ else .error "no such file"
  ioReadAll file := if file.fd = 3 then .ok "request" else .error "bad file descriptor"
  celNewEnv := .ok ()
  Compile _ src :=
    if src = "request" then (src, none) else (src, some ⟨some "syntax error"⟩)
  Program _ ast := .ok ast
  Eval _ vars :=
    if vars.request = "" then .error "no such attribute"
    else if vars.request = "map" then .ok (.map [])
    else .ok (.string vars.request)
  ConvertToNative out :=
    match out with
    | .string "null" => .ok .nil
    | .string s => .ok (.response s)
    | _ => .error "type conversion error"

/-! ## Lemmas on Go maps -/

theorem doubleEq_symm (a b : Nat) : doubleEq a b = doubleEq b a := by
  unfold doubleEq
  rw [Bool.eq_iff_iff]
  simp only [Bool.and_eq_true, Bool.or_eq_true, beq_iff_eq, Bool.not_eq_true']
  constructor
  · rintro ⟨⟨h1, h2⟩, h3⟩
    exact ⟨⟨h2, h1⟩, h3.elim (fun e => Or.inl e.symm) (fun e => Or.inr ⟨e.2, e.1⟩)⟩
  · rintro ⟨⟨h1, h2⟩, h3⟩
    exact ⟨⟨h2, h1⟩, h3.elim (fun e => Or.inl e.symm) (fun e => Or.inr ⟨e.2, e.1⟩)⟩

theorem doubleEq_trans {a b c : Nat} (h1 : doubleEq a b = true) (h2 : doubleEq b c = true) :
    doubleEq a c = true := by
  unfold doubleEq at *
  simp only [Bool.and_eq_true, Bool.or_eq_true, beq_iff_eq, Bool.not_eq_true'] at *
  obtain ⟨⟨ha, _⟩, hab⟩ := h1
  obtain ⟨⟨_, hc⟩, hbc⟩ := h2
  refine ⟨⟨ha, hc⟩, ?_⟩
  rcases hab with hab | hab
  · subst hab
    exact hbc
  · rcases hbc with hbc | hbc
    · subst hbc
      exact Or.inr hab
    · exact Or.inr ⟨hab.1, hbc.2⟩

namespace Key

theorem same_symm (a b : Key) : a.same b = b.same a := by
  cases a <;> cases b <;> simp [Key.same, doubleEq_symm, eq_comm]

theorem same_trans {a b c : Key} (h1 : a.same b = true) (h2 : b.same c = true) :
    a.same c = true := by
  cases a <;> cases b <;> simp [Key.same] at h1 <;> cases c <;> simp [Key.same] at h2 ⊢
  all_goals first
    | exact doubleEq_trans h1 h2
    | (subst h1; exact h2)

/-- Keys that are the same are the same as the same keys. -/
theorem same_congr {k k2 : Key} (h : k.same k2 = true) (e : Key) : e.same k = e.same k2 := by
  rw [Bool.eq_iff_iff]
  constructor
  · intro h1
    exact same_trans h1 h
  · intro h1
    exact same_trans h1 (by rw [same_symm]; exact h)

theorem same_self_of_same {k k2 : Key} (h : k.same k2 = true) : k.same k = true :=
  same_trans h (by rw [same_symm]; exact h)

end Key

namespace GoMap

theorem keys_cons (k : Key) (v : Val) (m : GoMap) : keys ((k, v) :: m) = k :: keys m := rfl

theorem find_congr {k k2 : Key} (h : k.same k2 = true) (m : GoMap) : find m k = find m k2 := by
  induction m with
  | nil => rfl
  | cons e rest ih =>
    obtain ⟨k3, v3⟩ := e
    simp only [find, Key.same_congr h k3, ih]

theorem find_set (m : GoMap) (k k2 : Key) (v : Val) :
    find (set m k v) k2 = if k.same k2 then some v else find m k2 := by
  induction m with
  | nil => simp [set, find]
  | cons e rest ih =>
    obtain ⟨k3, v3⟩ := e
    by_cases h : k3.same k = true
    · simp only [set, h, if_true, find]
      by_cases h2 : k.same k2 = true
      · simp [h2]
      · have h3 : k3.same k2 = false := by
          cases hh : k3.same k2
          · rfl
          · exact absurd (Key.same_trans (by rw [Key.same_symm]; exact h) hh) h2
        simp [h2, h3]
    · simp only [Bool.not_eq_true] at h
      simp only [set, h, Bool.false_eq_true, if_false, find, ih]
      by_cases h2 : k3.same k2 = true
      · have h3 : k.same k2 = false := by
          cases hh : k.same k2
          · rfl
          · have h4 := Key.same_trans h2 (by rw [Key.same_symm]; exact hh)
            rw [h] at h4
            cases h4
        simp [h2, h3]
      · simp [h2]

theorem find_eq_none_iff (m : GoMap) (k : Key) :
    find m k = none ↔ ∀ k2 ∈ keys m, k2.same k = false := by
  induction m with
  | nil => simp [find, keys]
  | cons e rest ih =>
    obtain ⟨k3, v3⟩ := e
    by_cases h : k3.same k = true
    · simp [find, keys_cons, h]
    · simp only [Bool.not_eq_true] at h
      simp [find, keys_cons, h, ih]

theorem mem_keys_set (m : GoMap) (k k2 : Key) (v : Val) :
    k2 ∈ keys (set m k v) → k2 = k ∨ k2 ∈ keys m := by
  induction m with
  | nil =>
    intro h
    simpa [set, keys] using h
  | cons e rest ih =>
    intro h
    obtain ⟨k3, v3⟩ := e
    by_cases h3 : k3.same k = true
    · simp only [set, h3, if_true, keys_cons, List.mem_cons] at h
      rcases h with h | h
      · exact Or.inl h
      · exact Or.inr (by simp [keys_cons, h])
    · simp only [Bool.not_eq_true] at h3
      simp only [set, h3, Bool.false_eq_true, if_false, keys_cons, List.mem_cons] at h
      rcases h with h | h
      · exact Or.inr (by simp [keys_cons, h])
      · rcases ih h with h | h
        · exact Or.inl h
        · exact Or.inr (by simp [keys_cons, h])

theorem wellKeyed_set (m : GoMap) (k : Key) (v : Val) :
    WellKeyed m → WellKeyed (set m k v) := by
  unfold WellKeyed
  induction m with
  | nil =>
    intro _
    simp [set, keys]
  | cons e rest ih =>
    intro h
    obtain ⟨k3, v3⟩ := e
    rw [keys_cons, List.pairwise_cons] at h
    by_cases h3 : k3.same k = true
    · simp only [set, h3, if_true, keys_cons, List.pairwise_cons]
      refine ⟨?_, h.2⟩
      intro k4 hk4
      cases hh : k.same k4
      · rfl
      · have h5 := h.1 k4 hk4
        rw [Key.same_trans h3 hh] at h5
        cases h5
    · simp only [Bool.not_eq_true] at h3
      simp only [set, h3, Bool.false_eq_true, if_false, keys_cons, List.pairwise_cons]
      refine ⟨?_, ih h.2⟩
      intro k4 hk4
      rcases mem_keys_set rest k k4 v hk4 with hk | hk
      · subst hk
        exact h3
      · exact h.1 k4 hk

theorem set_perm (m : GoMap) (k : Key) (v : Val) :
    WellKeyed m → (set m k v).Perm ((k, v) :: m.filter (fun e => !e.1.same k)) := by
  unfold WellKeyed
  induction m with
  | nil =>
    intro _
    simp [set]
  | cons e rest ih =>
    intro h
    obtain ⟨k3, v3⟩ := e
    rw [keys_cons, List.pairwise_cons] at h
    by_cases h3 : k3.same k = true
    · have hrest : rest.filter (fun e => !e.1.same k) = rest := by
        rw [List.filter_eq_self]
        intro e he
        have hk : e.1 ∈ keys rest := List.mem_map_of_mem Prod.fst he
        cases hh : e.1.same k
        · rfl
        · have h5 := Key.same_trans h3 (by rw [Key.same_symm]; exact hh)
          rw [h.1 e.1 hk] at h5
          cases h5
      simp only [set, h3, if_true, List.filter_cons, Bool.not_true, Bool.false_eq_true,
        if_false, hrest]
      exact List.Perm.refl _
    · simp only [Bool.not_eq_true] at h3
      simp only [set, h3, Bool.false_eq_true, if_false, List.filter_cons, Bool.not_false,
        if_true]
      exact ((ih h.2).cons (k3, v3)).trans (List.Perm.swap _ _ _)

theorem find_perm {m m2 : GoMap} (hp : m.Perm m2) (hn : WellKeyed m) (k : Key) :
    find m k = find m2 k := by
  unfold WellKeyed at hn
  induction hp with
  | nil => rfl
  | cons e _ ih =>
    obtain ⟨k3, v3⟩ := e
    rw [keys_cons, List.pairwise_cons] at hn
    simp only [find, ih hn.2]
  | swap e1 e2 l =>
    obtain ⟨k1, v1⟩ := e1
    obtain ⟨k2, v2⟩ := e2
    simp only [keys_cons, List.pairwise_cons, List.mem_cons, forall_eq_or_imp] at hn
    by_cases h1 : k1.same k = true
    · by_cases h2 : k2.same k = true
      · have h3 := Key.same_trans h2 (by rw [Key.same_symm]; exact h1)
        rw [hn.1.1] at h3
        cases h3
      · simp [find, h1, h2]
    · simp [find, h1]
  | trans h1 _ ih1 ih2 =>
    have hn2 : (keys _).Pairwise (fun a b => a.same b = false) :=
      (List.Perm.map Prod.fst h1).pairwise hn (fun {a b} h => by rw [Key.same_symm]; exact h)
    exact (ih1 hn).trans (ih2 hn2)

theorem wellKeyed_perm {m m2 : GoMap} (hp : m.Perm m2) (hn : WellKeyed m) : WellKeyed m2 :=
  (List.Perm.map Prod.fst hp).pairwise hn (fun {a b} h => by rw [Key.same_symm]; exact h)

theorem Find_of_find {m : GoMap} {k : Key} {v : Val} (h : find m k = some v) :
    Find m k = some v := by
  simp [Find, h]

theorem Find_perm {m m2 : GoMap} (hp : m.Perm m2) (hn : WellKeyed m) (k : Key) :
    Find m k = Find m2 k := by
  unfold Find
  simp only [find_perm hp hn]

/-- In a map without NaN keys and without two entries under one key, the Go
lookup of the key of an entry yields that entry. -/
theorem find_of_mem {m : GoMap} (hn : WellKeyed m) (hr : NoNaN m) {k : Key} {v : Val}
    (h : (k, v) ∈ m) : find m k = some v := by
  induction m with
  | nil => cases h
  | cons e rest ih =>
    obtain ⟨k3, v3⟩ := e
    unfold WellKeyed at hn ih
    rw [keys_cons, List.pairwise_cons] at hn
    have hr3 : k3.same k3 = true := hr k3 (by simp [keys_cons])
    have hrr : NoNaN rest := fun k4 hk4 => hr k4 (by simp [keys_cons, hk4])
    rcases List.mem_cons.1 h with h | h
    · cases h
      simp [find, hr3]
    · have hk : k ∈ keys rest := List.mem_map_of_mem Prod.fst h
      simp [find, hn.1 k hk, ih hn.2 hrr h]

end GoMap

theorem Get_of_find {mapper : GoMap} {k : Key} {v : Val} (h : mapper.find k = some v) :
    Get mapper k = v := by
  simp [Get, GoMap.Find_of_find h]

theorem Get_perm {m m2 : GoMap} (hp : m.Perm m2) (hn : GoMap.WellKeyed m) (k : Key) :
    Get m k = Get m2 k := by
  unfold Get
  rw [GoMap.Find_perm hp hn]

/-- The loop body applied along a list of keys, as `copyEntries` does, seen by
the Go lookup. -/
theorem foldl_set_find (g : Key → Val) (F : Key → Option Val) (ks : List Key) (copy : GoMap)
    (k : Key) (hF : ∀ k2 ∈ ks, k2.same k = true → F k = some (g k2)) :
    GoMap.find (ks.foldl (fun c nextK => c.set nextK (g nextK)) copy) k
      = if ks.any (fun k2 => k2.same k) then F k else GoMap.find copy k := by
  induction ks generalizing copy with
  | nil => simp
  | cons k2 rest ih =>
    have ih2 := ih (copy.set k2 (g k2)) (fun k3 h3 => hF k3 (List.mem_cons_of_mem _ h3))
    simp only [List.foldl_cons, ih2, GoMap.find_set, List.any_cons]
    by_cases h : rest.any (fun k2 => k2.same k) = true
    · simp [h]
    · by_cases h2 : k2.same k = true
      · simp [h, h2, hF k2 (List.mem_cons_self _ _) h2]
      · simp [h, h2]

theorem foldl_set_wellKeyed (g : Key → Val) (ks : List Key) (copy : GoMap)
    (h : GoMap.WellKeyed copy) :
    GoMap.WellKeyed (ks.foldl (fun c nextK => c.set nextK (g nextK)) copy) := by
  induction ks generalizing copy with
  | nil => simpa using h
  | cons k2 rest ih =>
    simp only [List.foldl_cons]
    exact ih _ (GoMap.wellKeyed_set _ _ _ h)

/-- The loop as a whole: the entries of `copy` that no key of `ks` replaces,
and one entry for every key of `ks`. -/
theorem foldl_set_perm (g : Key → Val) (ks : List Key) (copy : GoMap)
    (hks : ks.Pairwise (fun a b => a.same b = false)) (hc : GoMap.WellKeyed copy) :
    (ks.foldl (fun c nextK => c.set nextK (g nextK)) copy).Perm
      (copy.filter (fun e => !ks.any (fun k => k.same e.1)) ++ ks.map (fun k => (k, g k))) := by
  induction ks generalizing copy with
  | nil => simp
  | cons k rest ih =>
    rw [List.pairwise_cons] at hks
    have h1 := ih (copy.set k (g k)) hks.2 (GoMap.wellKeyed_set _ _ _ hc)
    have h2 := (GoMap.set_perm copy k (g k) hc).filter
      (fun e => !rest.any (fun k => k.same e.1))
    have hk : rest.any (fun k2 => k2.same k) = false := by
      rw [List.any_eq_false]
      intro k4 hk4
      rw [Key.same_symm]
      simpa using hks.1 k4 hk4
    rw [List.filter_cons] at h2
    simp only [hk, Bool.not_false, if_true, List.filter_filter] at h2
    have hf : copy.filter (fun e => (!rest.any (fun k => k.same e.1)) && !e.1.same k)
        = copy.filter (fun e => !(k :: rest).any (fun k => k.same e.1)) := by
      apply List.filter_congr
      intro e _
      rw [List.any_cons, Key.same_symm e.1 k]
      cases k.same e.1 <;> cases rest.any (fun k => k.same e.1) <;> rfl
    rw [hf] at h2
    simp only [List.foldl_cons, List.map_cons]
    exact (h1.trans (h2.append_right _)).trans List.perm_middle.symm

theorem copyEntries_find (mapper copy : GoMap) (k : Key) :
    (copyEntries mapper copy).find k
      = match mapper.find k with
        | some v => some v
        | none => copy.find k := by
  unfold copyEntries
  rw [foldl_set_find (Get mapper) (fun k => mapper.find k)]
  · cases hf : mapper.find k with
    | none =>
      have h := (GoMap.find_eq_none_iff mapper k).1 hf
      have h2 : mapper.keys.any (fun k2 => k2.same k) = false := by
        rw [List.any_eq_false]
        intro k2 hk2
        simpa using h k2 hk2
      simp [h2]
    | some v =>
      have h2 : mapper.keys.any (fun k2 => k2.same k) = true := by
        cases hh : mapper.keys.any (fun k2 => k2.same k)
        · rw [List.any_eq_false] at hh
          have h3 := (GoMap.find_eq_none_iff mapper k).2 (fun k2 hk2 => by simpa using hh k2 hk2)
          rw [hf] at h3
          cases h3
        · rfl
      simp [h2]
  · intro k2 _ hs
    have h1 : mapper.find k2 = mapper.find k := GoMap.find_congr hs mapper
    cases hf : mapper.find k2 with
    | none =>
      have h := (GoMap.find_eq_none_iff mapper k2).1 hf
      rename_i hk2
      have h3 := h k2 hk2
      rw [Key.same_self_of_same hs] at h3
      cases h3
    | some v =>
      rw [← h1, hf, Get_of_find hf]

theorem copyEntries_wellKeyed (mapper copy : GoMap) (h : copy.WellKeyed) :
    (copyEntries mapper copy).WellKeyed :=
  foldl_set_wellKeyed _ _ _ h

theorem copyEntries_perm (mapper copy : GoMap) (hm : mapper.WellKeyed) (hc : copy.WellKeyed) :
    (copyEntries mapper copy).Perm
      (copy.filter (fun e => !mapper.keys.any (fun k => k.same e.1))
        ++ mapper.keys.map (fun k => (k, Get mapper k))) :=
  foldl_set_perm _ _ _ hm hc

/-- For a map without NaN keys the loop reads every entry as it is. -/
theorem keys_map_Get (m : GoMap) (hn : m.WellKeyed) (hr : m.NoNaN) :
    m.keys.map (fun k => (k, Get m k)) = m := by
  unfold GoMap.keys
  rw [List.map_map]
  conv_rhs => rw [← List.map_id m]
  apply List.map_congr_left
  intro e he
  obtain ⟨k, v⟩ := e
  simp [Get_of_find (GoMap.find_of_mem hn hr he)]

theorem mapOverrideEntries_maps (A B : GoMap) :
    mapOverrideEntries [.map A, .map B] = some (.map (copyEntries B (copyEntries A []))) := rfl

theorem merged_find (A B : GoMap) (k : Key) :
    (copyEntries B (copyEntries A [])).find k
      = match B.find k with
        | some v => some v
        | none => A.find k := by
  rw [copyEntries_find, copyEntries_find]
  cases B.find k with
  | some v => rfl
  | none => cases A.find k <;> rfl

theorem merged_wellKeyed (A B : GoMap) : (copyEntries B (copyEntries A [])).WellKeyed :=
  copyEntries_wellKeyed _ _ (copyEntries_wellKeyed _ _ (by simp [GoMap.WellKeyed, GoMap.keys]))

/-- The result as a collection of entries, for any two Go maps: what the
first loop stored and no key of B replaces, and what the second loop stored. -/
theorem merged_perm_general (A B : GoMap) (hA : A.WellKeyed) (hB : B.WellKeyed) :
    (copyEntries B (copyEntries A [])).Perm
      ((A.keys.map (fun k => (k, Get A k))).filter
          (fun e => !B.keys.any (fun k => k.same e.1))
        ++ B.keys.map (fun k => (k, Get B k))) := by
  have hnil : GoMap.WellKeyed [] := by simp [GoMap.WellKeyed, GoMap.keys]
  have h1 := copyEntries_perm A [] hA hnil
  simp only [List.filter_nil, List.nil_append] at h1
  have h2 := copyEntries_perm B (copyEntries A []) hB (copyEntries_wellKeyed A [] hnil)
  exact h2.trans ((h1.filter _).append_right _)

/-- The result as a collection of entries, without NaN keys: the entries of A
that no key of B replaces, and the entries of B. -/
theorem merged_perm (A B : GoMap) (hA : A.WellKeyed) (hB : B.WellKeyed)
    (hAn : A.NoNaN) (hBn : B.NoNaN) :
    (copyEntries B (copyEntries A [])).Perm
      (A.filter (fun e => !B.keys.any (fun k => k.same e.1)) ++ B) := by
  have h := merged_perm_general A B hA hB
  rw [keys_map_Get A hA hAn, keys_map_Get B hB hBn] at h
  exact h

theorem any_same_perm {ks ks2 : List Key} (hp : ks.Perm ks2) (k : Key) :
    ks.any (fun k2 => k2.same k) = ks2.any (fun k2 => k2.same k) := by
  rw [Bool.eq_iff_iff, List.any_eq_true, List.any_eq_true]
  constructor
  · rintro ⟨x, hx, h⟩
    exact ⟨x, hp.mem_iff.1 hx, h⟩
  · rintro ⟨x, hx, h⟩
    exact ⟨x, hp.mem_iff.2 hx, h⟩

/-- The entries of the result do not depend on the order in which the two
arguments yield theirs. -/
theorem merged_perm_of_perm (A A2 B B2 : GoMap) (hA : A.WellKeyed) (hB : B.WellKeyed)
    (hAp : A.Perm A2) (hBp : B.Perm B2) :
    (copyEntries B (copyEntries A [])).Perm (copyEntries B2 (copyEntries A2 [])) := by
  have h1 := merged_perm_general A B hA hB
  have h2 := merged_perm_general A2 B2 (GoMap.wellKeyed_perm hAp hA)
    (GoMap.wellKeyed_perm hBp hB)
  have hgA : (fun k => (k, Get A k)) = (fun k => (k, Get A2 k)) := by
    funext k
    rw [Get_perm hAp hA]
  have hgB : (fun k => (k, Get B k)) = (fun k => (k, Get B2 k)) := by
    funext k
    rw [Get_perm hBp hB]
  have hP : (fun e : Key × Val => !B.keys.any (fun k => k.same e.1))
      = (fun e : Key × Val => !B2.keys.any (fun k => k.same e.1)) := by
    funext e
    have hkB : B.keys.Perm B2.keys := hBp.map Prod.fst
    rw [any_same_perm hkB]
  have hkA : A.keys.Perm A2.keys := hAp.map Prod.fst
  have hkB : B.keys.Perm B2.keys := hBp.map Prod.fst
  rw [hgA, hgB, hP] at h1
  exact (h1.trans (((hkA.map _).filter _).append (hkB.map _))).trans h2.symm

/-! ## The builtin mapOverrideEntries -/

/-- C1 as stated fails, twice.  With A = (NaN: 1) and B empty, the key NaN is
in A only, and the result holds under it the error "no such key: %v" of that
key and not 1, the value A has.  With A = (1: "from-A") and B = (1u: "from-B"),
CEL finds the key 1 in B, where it has the value "from-B", yet under 1 the
result has "from-A", and it has two entries. -/
theorem mapOverrideEntries_union_fails :
    mapOverrideEntries [.map [(.double nanBits, .int 1)], .map []]
      = some (.map [(.double nanBits, .err "no such key: %v" [.double nanBits])]) ∧
    (∃ R : GoMap,
      mapOverrideEntries
        [.map [(.int 1, .string "from-A")], .map [(.uint 1, .string "from-B")]]
        = some (.map R) ∧
      GoMap.Find [(.uint 1, .string "from-B")] (.int 1) = some (.string "from-B") ∧
      R.Find (.int 1) = some (.string "from-A") ∧
      R.size = 2) :=
  ⟨rfl, [(.int 1, .string "from-A"), (.uint 1, .string "from-B")], rfl, rfl, rfl, rfl⟩

/-- C1, amended: on two maps without a NaN key (and, as in any Go map, without
two entries under one key), keys being the same when Go's `==` says so (same
kind and equal content), `mapOverrideEntries` returns a map that holds the
entries of B and the entries of A whose key B does not have, and nothing else:
a key is found in the result exactly when it is found in A or in B; every entry
of B is an entry of the result, found under its key; every entry of A whose key
B does not have is an entry of the result, found under its key; and where both
hold a map under one key the result holds the map of B as it is, not a merge
of the two. -/
theorem mapOverrideEntries_right_biased_union (A B : GoMap)
    (hA : A.WellKeyed) (hB : B.WellKeyed) (hAn : A.NoNaN) (hBn : B.NoNaN) :
    ∃ R : GoMap, mapOverrideEntries [.map A, .map B] = some (.map R) ∧
      R.WellKeyed ∧
      R.Perm (A.filter (fun e => !B.keys.any (fun k => k.same e.1)) ++ B) ∧
      (∀ k, (R.find k).isSome ↔ (A.find k).isSome ∨ (B.find k).isSome) ∧
      (∀ k v, (k, v) ∈ B → (k, v) ∈ R ∧ R.Find k = some v) ∧
      (∀ k v, (k, v) ∈ A → B.find k = none → (k, v) ∈ R ∧ R.Find k = some v) ∧
      (∀ k a b, (k, .map a) ∈ A → (k, .map b) ∈ B → R.Find k = some (.map b)) := by
  have hperm := merged_perm A B hA hB hAn hBn
  have hB2 : ∀ k v, (k, v) ∈ B →
      (k, v) ∈ copyEntries B (copyEntries A []) ∧
      (copyEntries B (copyEntries A [])).Find k = some v := by
    intro k v hkv
    refine ⟨hperm.mem_iff.2 (List.mem_append_right _ hkv), GoMap.Find_of_find ?_⟩
    rw [merged_find, GoMap.find_of_mem hB hBn hkv]
  refine ⟨copyEntries B (copyEntries A []), mapOverrideEntries_maps A B,
    merged_wellKeyed A B, hperm, ?_, hB2, ?_, ?_⟩
  · intro k
    rw [merged_find]
    cases B.find k <;> cases A.find k <;> simp
  · intro k v hkv hBk
    refine ⟨hperm.mem_iff.2 (List.mem_append_left _ ?_), GoMap.Find_of_find ?_⟩
    · rw [List.mem_filter]
      refine ⟨hkv, ?_⟩
      have h := (GoMap.find_eq_none_iff B k).1 hBk
      have h2 : B.keys.any (fun k2 => k2.same k) = false := by
        rw [List.any_eq_false]
        intro k2 hk2
        simpa using h k2 hk2
      simp [h2]
    · rw [merged_find, hBk, GoMap.find_of_mem hA hAn hkv]
  · intro k a b _ hb
    exact (hB2 k (.map b) hb).2

/-- C1, amended, at the example of the spec with a nested map under the shared
key and a double key: A = ("a": 1, "b": ("x": 1), 2.0: 5),
B = ("b": ("y": 2), "c": 4). -/
theorem mapOverrideEntries_right_biased_union_witness :
    ∃ R : GoMap, mapOverrideEntries
        [.map [(.string "a", .int 1), (.string "b", .map [(.string "x", .int 1)]),
          (.double 0x4000000000000000, .int 5)],
         .map [(.string "b", .map [(.string "y", .int 2)]), (.string "c", .int 4)]]
        = some (.map R) ∧
      R.WellKeyed ∧
      R.Perm (List.filter
          (fun e => !(GoMap.keys [(.string "b", .map [(.string "y", .int 2)]),
            (.string "c", .int 4)]).any (fun k => k.same e.1))
          [(.string "a", .int 1), (.string "b", .map [(.string "x", .int 1)]),
            (.double 0x4000000000000000, .int 5)]
        ++ [(.string "b", .map [(.string "y", .int 2)]), (.string "c", .int 4)]) ∧
      (∀ k, (R.find k).isSome ↔
        (GoMap.find [(.string "a", .int 1), (.string "b", .map [(.string "x", .int 1)]),
          (.double 0x4000000000000000, .int 5)] k).isSome ∨
        (GoMap.find [(.string "b", .map [(.string "y", .int 2)]),
          (.string "c", .int 4)] k).isSome) ∧
      (∀ k v, (k, v) ∈ ([(.string "b", .map [(.string "y", .int 2)]),
          (.string "c", .int 4)] : GoMap) → (k, v) ∈ R ∧ R.Find k = some v) ∧
      (∀ k v, (k, v) ∈ ([(.string "a", .int 1), (.string "b", .map [(.string "x", .int 1)]),
          (.double 0x4000000000000000, .int 5)] : GoMap) →
        GoMap.find [(.string "b", .map [(.string "y", .int 2)]), (.string "c", .int 4)] k
          = none → (k, v) ∈ R ∧ R.Find k = some v) ∧
      (∀ k a b, (k, .map a) ∈ ([(.string "a", .int 1),
          (.string "b", .map [(.string "x", .int 1)]),
          (.double 0x4000000000000000, .int 5)] : GoMap) →
        (k, .map b) ∈ ([(.string "b", .map [(.string "y", .int 2)]),
          (.string "c", .int 4)] : GoMap) → R.Find k = some (.map b)) :=
  mapOverrideEntries_right_biased_union
    [(.string "a", .int 1), (.string "b", .map [(.string "x", .int 1)]),
      (.double 0x4000000000000000, .int 5)]
    [(.string "b", .map [(.string "y", .int 2)]), (.string "c", .int 4)]
    (by decide) (by decide) (by decide) (by decide)

/-- C2: when the first or the second argument is not a map,
`mapOverrideEntries` returns an error value ("unsupported lhs type" or
"unsupported rhs type"); it returns a map exactly when both arguments are
maps. -/
theorem mapOverrideEntries_type_error (lhs rhs : Val) :
    ((∀ A, lhs ≠ .map A) →
      mapOverrideEntries [lhs, rhs] = some (.err "unsupported lhs type" [])) ∧
    ((∃ A, lhs = .map A) → (∀ B, rhs ≠ .map B) →
      mapOverrideEntries [lhs, rhs] = some (.err "unsupported rhs type" [])) ∧
    ((∃ R, mapOverrideEntries [lhs, rhs] = some (.map R)) ↔
      (∃ A, lhs = .map A) ∧ (∃ B, rhs = .map B)) := by
  cases lhs <;> cases rhs <;>
    simp [mapOverrideEntries, asMapper, ValOrErr, NativeToValue]

/-- C2, at a string on the left, and at a map on the left with an integer on
the right. -/
theorem mapOverrideEntries_type_error_witness :
    mapOverrideEntries [.string "a", .map []] = some (.err "unsupported lhs type" []) ∧
    mapOverrideEntries [.map [(.string "a", .int 1)], .int 7]
      = some (.err "unsupported rhs type" []) :=
  ⟨(mapOverrideEntries_type_error (.string "a") (.map [])).1 (by intro A h; cases h),
   (mapOverrideEntries_type_error (.map [(.string "a", .int 1)]) (.int 7)).2.1
     ⟨_, rfl⟩ (by intro B h; cases h)⟩

/-- C9 as stated fails: for A = ("a":1), B = ("b":2) two calls return the same
Go map over the keys "a" and "b", and the one result may be enumerated "a"
then "b" while the other is enumerated "b" then "a". -/
theorem mapOverrideEntries_key_order_not_fixed :
    ∃ R R2 : GoMap,
      mapOverrideEntries [.map [(.string "a", .int 1)], .map [(.string "b", .int 2)]]
        = some (.map R) ∧
      mapOverrideEntries [.map [(.string "a", .int 1)], .map [(.string "b", .int 2)]]
        = some (.map R2) ∧
      Enumerates [.string "a", .string "b"] R ∧
      Enumerates [.string "b", .string "a"] R2 ∧
      [Key.string "a", Key.string "b"] ≠ [Key.string "b", Key.string "a"] :=
  ⟨[(.string "a", .int 1), (.string "b", .int 2)],
   [(.string "a", .int 1), (.string "b", .int 2)],
   rfl, rfl, by decide, by decide, by decide⟩

/-- C9, amended: two calls on the same two maps (Go maps of any keys, NaN
included, so without two entries under one key), whatever the order in which
the iterators yield the entries of the arguments in each call, return maps
that are equal as maps: the same entries, hence the same value found under
every key and the same size.  The order of the keys is not fixed: any
enumeration of the one result and any enumeration of the other hold the same
keys, none twice. -/
theorem mapOverrideEntries_deterministic_as_map (A A2 B B2 : GoMap)
    (hA : A.WellKeyed) (hB : B.WellKeyed) (hAp : A.Perm A2) (hBp : B.Perm B2) :
    ∃ R R2 : GoMap,
      mapOverrideEntries [.map A, .map B] = some (.map R) ∧
      mapOverrideEntries [.map A2, .map B2] = some (.map R2) ∧
      R.Perm R2 ∧
      (∀ k, R.Find k = R2.Find k) ∧
      R.size = R2.size ∧
      (∀ ks ks2, Enumerates ks R → Enumerates ks2 R2 →
        ks.Perm ks2 ∧ ks.Pairwise (fun a b => a.same b = false)) := by
  have hperm := merged_perm_of_perm A A2 B B2 hA hB hAp hBp
  have hw := merged_wellKeyed A B
  refine ⟨_, _, mapOverrideEntries_maps A B, mapOverrideEntries_maps A2 B2, hperm, ?_, ?_, ?_⟩
  · intro k
    exact GoMap.Find_perm hperm hw k
  · exact hperm.length_eq
  · intro ks ks2 h1 h2
    refine ⟨h1.trans ((hperm.map Prod.fst).trans h2.symm), ?_⟩
    exact h1.symm.pairwise hw (fun {a b} h => by rw [Key.same_symm]; exact h)

/-- C9, amended, at A = ("a":1, NaN:2) yielded in both orders and B = ("b":3). -/
theorem mapOverrideEntries_deterministic_as_map_witness :
    ∃ R R2 : GoMap,
      mapOverrideEntries [.map [(.string "a", .int 1), (.double nanBits, .int 2)],
          .map [(.string "b", .int 3)]] = some (.map R) ∧
      mapOverrideEntries [.map [(.double nanBits, .int 2), (.string "a", .int 1)],
          .map [(.string "b", .int 3)]] = some (.map R2) ∧
      R.Perm R2 ∧
      (∀ k, R.Find k = R2.Find k) ∧
      R.size = R2.size ∧
      (∀ ks ks2, Enumerates ks R → Enumerates ks2 R2 →
        ks.Perm ks2 ∧ ks.Pairwise (fun a b => a.same b = false)) :=
  mapOverrideEntries_deterministic_as_map
    [(.string "a", .int 1), (.double nanBits, .int 2)]
    [(.double nanBits, .int 2), (.string "a", .int 1)]
    [(.string "b", .int 3)] [(.string "b", .int 3)]
    (by decide) (by decide) (List.Perm.swap _ _ _) (List.Perm.refl _)

/-! ## The configuration store -/

section PluginLemmas

variable {Env Ast Prg Req Resp : Type}

theorem expressionSource_error_code (h : Host Env Ast Prg Req Resp)
    (s path : Option String) (st : Status) (he : expressionSource h s path = .error st) :
    st.code = .InvalidArgument := by
  unfold expressionSource at he
  split at he
  · cases he; rfl
  · cases he
  · split at he
    · cases he; rfl
    · split at he
      · cases he; rfl
      · cases he

/-- Every way `Configure` can end: an InvalidArgument error with the plugin
untouched, or success with the configuration built by this call installed. -/
theorem Configure_cases (h : Host Env Ast Prg Req Resp) (p : Plugin Prg)
    (req : ConfigureRequest) :
    (∃ st : Status, st.code = .InvalidArgument ∧ Configure h p req = ((none, some st), p)) ∨
    (∃ s path src env prg,
      h.hclDecode req.HclConfiguration = .ok (s, path) ∧
      expressionSource h s path = .ok src ∧
      h.celNewEnv = .ok env ∧
      compileError (h.Compile env src).2 = none ∧
      h.Program env (h.Compile env src).1 = .ok prg ∧
      Configure h p req = ((some ⟨⟩, none),
        ⟨some ⟨⟨some src, path, prg⟩, req.CoreConfiguration.TrustDomain,
          "spiffe://" ++ req.CoreConfiguration.TrustDomain⟩⟩)) := by
  cases hd : h.hclDecode req.HclConfiguration with
  | error e =>
    refine Or.inl ⟨Errorf .InvalidArgument ("failed to decode configuration: " ++ e), rfl, ?_⟩
    simp only [Configure, hd]
  | ok sp =>
    obtain ⟨s, path⟩ := sp
    cases hs : expressionSource h s path with
    | error st =>
      refine Or.inl ⟨st, expressionSource_error_code h s path st hs, ?_⟩
      simp only [Configure, hd, hs]
    | ok src =>
      cases hen : h.celNewEnv with
      | error e =>
        refine Or.inl ⟨Errorf .InvalidArgument ("Failed to load cel environment: " ++ e),
          rfl, ?_⟩
        simp only [Configure, hd, hs, hen]
      | ok env =>
        cases hc : h.Compile env src with
        | mk ast issues =>
          cases hi : compileError issues with
          | some e =>
            refine Or.inl ⟨Errorf .InvalidArgument ("Failed to compile cel expression: " ++ e),
              rfl, ?_⟩
            simp only [Configure, hd, hs, hen, hc, hi]
          | none =>
            cases hp : h.Program env ast with
            | error e =>
              refine Or.inl ⟨Errorf .InvalidArgument ("Failed to build cel program: " ++ e),
                rfl, ?_⟩
              simp only [Configure, hd, hs, hen, hc, hi, hp]
            | ok prg =>
              refine Or.inr ⟨s, path, src, env, prg, rfl, hs, rfl, ?_, ?_, ?_⟩
              · rw [hc]; exact hi
              · rw [hc]; exact hp
              · simp only [Configure, hd, hs, hen, hc, hi, hp, setConfig]

theorem Configure_error_unchanged (h : Host Env Ast Prg Req Resp) (p : Plugin Prg)
    (req : ConfigureRequest) (he : (Configure h p req).1.2 ≠ none) :
    (Configure h p req).2 = p ∧ (Configure h p req).1.1 = none := by
  rcases Configure_cases h p req with ⟨st, _, hr⟩ | ⟨s, path, src, env, prg, _, _, _, _, _, hr⟩
  · rw [hr]; exact ⟨rfl, rfl⟩
  · rw [hr] at he; exact absurd rfl he

theorem Configure_ok_installed (h : Host Env Ast Prg Req Resp) (p : Plugin Prg)
    (req : ConfigureRequest) (he : (Configure h p req).1.2 = none) :
    (Configure h p req).2.config ≠ none := by
  rcases Configure_cases h p req with ⟨st, _, hr⟩ | ⟨s, path, src, env, prg, _, _, _, _, _, hr⟩
  · rw [hr] at he; cases he
  · rw [hr]; simp

theorem getConfig_error_iff (p : Plugin Prg) :
    getConfig p = .error ⟨.FailedPrecondition, "not configured"⟩ ↔ p.config = none := by
  unfold getConfig
  cases p.config <;> simp

theorem configureAll_config_none (p : Plugin Prg)
    (calls : List (Host Env Ast Prg Req Resp × ConfigureRequest)) :
    (configureAll p calls).2.config = none ↔
      p.config = none ∧ ∀ e ∈ (configureAll p calls).1, e ≠ none := by
  induction calls generalizing p with
  | nil => simp [configureAll]
  | cons c rest ih =>
    obtain ⟨h, req⟩ := c
    simp only [configureAll, List.mem_cons, forall_eq_or_imp, ih]
    by_cases he : (Configure h p req).1.2 = none
    · have h1 := Configure_ok_installed h p req he
      simp [he, h1]
    · have h1 := (Configure_error_unchanged h p req he).1
      rw [h1]
      simp only [he, not_false_eq_true, true_and, ne_eq]

end PluginLemmas

/-! ## Configure -/

section PluginTheorems

variable {Env Ast Prg Req Resp : Type}

/-- C3: when `Configure` returns an error it returns no response and leaves
the plugin as it was, so `getConfig` answers as before the call; and each of
the failures of the call (configuration that does not decode, no expression
given, expression file that cannot be opened or read, environment not built,
expression that does not compile, program not built) makes it return an
error. -/
theorem Configure_atomic_on_failure (h : Host Env Ast Prg Req Resp) (p : Plugin Prg)
    (req : ConfigureRequest) :
    ((Configure h p req).1.2 ≠ none →
      (Configure h p req).2 = p ∧
      getConfig (Configure h p req).2 = getConfig p ∧
      (Configure h p req).1.1 = none) ∧
    (∀ e, h.hclDecode req.HclConfiguration = .error e →
      (Configure h p req).1.2
        = some ⟨.InvalidArgument, "failed to decode configuration: " ++ e⟩) ∧
    (h.hclDecode req.HclConfiguration = .ok (none, none) →
      (Configure h p req).1.2 = some ⟨.InvalidArgument,
        "you must have jwt.expression_string or jwt.expression_path defined."⟩) ∧
    (∀ s path e, h.hclDecode req.HclConfiguration = .ok (s, some path) →
      h.osOpen path = .error e →
      (Configure h p req).1.2 = some ⟨.InvalidArgument, "Error opening file: " ++ e⟩) ∧
    (∀ s path file e, h.hclDecode req.HclConfiguration = .ok (s, some path) →
      h.osOpen path = .ok file → h.ioReadAll file = .error e →
      (Configure h p req).1.2 = some ⟨.InvalidArgument, "Error reading file: " ++ e⟩) ∧
    (∀ s path src e, h.hclDecode req.HclConfiguration = .ok (s, path) →
      expressionSource h s path = .ok src → h.celNewEnv = .error e →
      (Configure h p req).1.2
        = some ⟨.InvalidArgument, "Failed to load cel environment: " ++ e⟩) ∧
    (∀ s path src env e, h.hclDecode req.HclConfiguration = .ok (s, path) →
      expressionSource h s path = .ok src → h.celNewEnv = .ok env →
      compileError (h.Compile env src).2 = some e →
      (Configure h p req).1.2
        = some ⟨.InvalidArgument, "Failed to compile cel expression: " ++ e⟩) ∧
    (∀ s path src env e, h.hclDecode req.HclConfiguration = .ok (s, path) →
      expressionSource h s path = .ok src → h.celNewEnv = .ok env →
      compileError (h.Compile env src).2 = none →
      h.Program env (h.Compile env src).1 = .error e →
      (Configure h p req).1.2
        = some ⟨.InvalidArgument, "Failed to build cel program: " ++ e⟩) := by
  refine ⟨?_, ?_, ?_, ?_, ?_, ?_, ?_, ?_⟩
  · intro he
    have h1 := Configure_error_unchanged h p req he
    exact ⟨h1.1, by rw [h1.1], h1.2⟩
  · intro e hd
    simp only [Configure, hd, Errorf]
  · intro hd
    simp only [Configure, hd, expressionSource, Errorf]
  · intro s path e hd ho
    cases s <;> simp only [Configure, hd, expressionSource, ho, Errorf]
  · intro s path file e hd ho hr
    cases s <;> simp only [Configure, hd, expressionSource, ho, hr, Errorf]
  · intro s path src e hd hs hen
    simp only [Configure, hd, hs, hen, Errorf]
  · intro s path src env e hd hs hen hc
    cases hcc : h.Compile env src with
    | mk ast issues =>
      rw [hcc] at hc
      simp only [Configure, hd, hs, hen, hcc, hc, Errorf]
  · intro s path src env e hd hs hen hc hp
    cases hcc : h.Compile env src with
    | mk ast issues =>
      rw [hcc] at hc hp
      simp only [Configure, hd, hs, hen, hcc, hc, hp, Errorf]

/-- C3, at a plugin configured for example.org that is given an expression
that does not compile: the call fails and the old configuration stays. -/
theorem Configure_atomic_on_failure_witness :
    (Configure exampleHost
        ⟨some ⟨⟨some "request", none, "request"⟩, "example.org", "spiffe://example.org"⟩⟩
        ⟨⟨"example.com"⟩, "inline-bad"⟩).1.2 ≠ none ∧
    (Configure exampleHost
        ⟨some ⟨⟨some "request", none, "request"⟩, "example.org", "spiffe://example.org"⟩⟩
        ⟨⟨"example.com"⟩, "inline-bad"⟩).2
      = ⟨some ⟨⟨some "request", none, "request"⟩, "example.org", "spiffe://example.org"⟩⟩ :=
  ⟨by decide,
   ((Configure_atomic_on_failure exampleHost
      ⟨some ⟨⟨some "request", none, "request"⟩, "example.org", "spiffe://example.org"⟩⟩
      ⟨⟨"example.com"⟩, "inline-bad"⟩).1 (by decide)).1⟩

/-- C4: when the decoded configuration has neither `jwt.expression_string` nor
`jwt.expression_path`, `Configure` returns no response and the
InvalidArgument error "you must have jwt.expression_string or
jwt.expression_path defined.", and the plugin, hence what `getConfig`
answers, is as before the call. -/
theorem Configure_neither_expression (h : Host Env Ast Prg Req Resp) (p : Plugin Prg)
    (req : ConfigureRequest)
    (hd : h.hclDecode req.HclConfiguration = .ok (none, none)) :
    Configure h p req = ((none, some ⟨.InvalidArgument,
        "you must have jwt.expression_string or jwt.expression_path defined."⟩), p) ∧
    getConfig (Configure h p req).2 = getConfig p := by
  have h1 : Configure h p req = ((none, some ⟨.InvalidArgument,
      "you must have jwt.expression_string or jwt.expression_path defined."⟩), p) := by
    simp only [Configure, hd, expressionSource, Errorf]
  exact ⟨h1, by rw [h1]⟩

/-- C4, at a plugin that is not configured and at one that is. -/
theorem Configure_neither_expression_witness :
    getConfig (Configure exampleHost (Plugin.new String) ⟨⟨"example.org"⟩, "empty"⟩).2
      = .error ⟨.FailedPrecondition, "not configured"⟩ ∧
    Configure exampleHost
        ⟨some ⟨⟨some "request", none, "request"⟩, "example.org", "spiffe://example.org"⟩⟩
        ⟨⟨"example.com"⟩, "empty"⟩
      = ((none, some ⟨.InvalidArgument,
          "you must have jwt.expression_string or jwt.expression_path defined."⟩),
        ⟨some ⟨⟨some "request", none, "request"⟩, "example.org", "spiffe://example.org"⟩⟩) :=
  ⟨(Configure_neither_expression exampleHost (Plugin.new String)
      ⟨⟨"example.org"⟩, "empty"⟩ rfl).2,
   (Configure_neither_expression exampleHost
      ⟨some ⟨⟨some "request", none, "request"⟩, "example.org", "spiffe://example.org"⟩⟩
      ⟨⟨"example.com"⟩, "empty"⟩ rfl).1⟩

/-- C5: after a `Configure` call with core trust domain `td` that returns no
error, `getConfig` returns a configuration whose `trustDomain` is `td`, whose
`spiffeTrustDomain` is "spiffe://" followed by `td`, and whose program is the
one this call built from the expression it compiled. -/
theorem Configure_installs_trust_domain (h : Host Env Ast Prg Req Resp) (p : Plugin Prg)
    (td hcl : String)
    (hok : (Configure h p ⟨⟨td⟩, hcl⟩).1.2 = none) :
    ∃ config env src,
      getConfig (Configure h p ⟨⟨td⟩, hcl⟩).2 = .ok config ∧
      config.trustDomain = td ∧
      config.spiffeTrustDomain = "spiffe://" ++ td ∧
      h.celNewEnv = .ok env ∧
      config.JWT.ExpressionString = some src ∧
      compileError (h.Compile env src).2 = none ∧
      h.Program env (h.Compile env src).1 = .ok config.JWT.prg := by
  rcases Configure_cases h p ⟨⟨td⟩, hcl⟩ with
    ⟨st, _, hr⟩ | ⟨s, path, src, env, prg, _, _, hen, hc, hp, hr⟩
  · rw [hr] at hok; cases hok
  · exact ⟨_, env, src, by rw [hr]; rfl, rfl, rfl, hen, rfl, hc, hp⟩

/-- C5, at the trust domain example.org. -/
theorem Configure_installs_trust_domain_witness :
    (Configure exampleHost (Plugin.new String) ⟨⟨"example.org"⟩, "inline"⟩).1.2 = none ∧
    (∃ config env src,
      getConfig (Configure exampleHost (Plugin.new String) ⟨⟨"example.org"⟩, "inline"⟩).2
        = .ok config ∧
      config.trustDomain = "example.org" ∧
      config.spiffeTrustDomain = "spiffe://" ++ "example.org" ∧
      exampleHost.celNewEnv = .ok env ∧
      config.JWT.ExpressionString = some src ∧
      compileError (exampleHost.Compile env src).2 = none ∧
      exampleHost.Program env (exampleHost.Compile env src).1 = .ok config.JWT.prg) ∧
    "spiffe://" ++ "example.org" = "spiffe://example.org" :=
  ⟨by decide,
   Configure_installs_trust_domain exampleHost (Plugin.new String) "example.org" "inline"
     (by decide),
   by decide⟩

/-- C8 as stated fails: a configuration that sets both `expression_string`
and `expression_path` is accepted. -/
theorem Configure_accepts_both_set :
    exampleHost.hclDecode "both" = .ok (some "request +", some "/etc/expr.cel") ∧
    (Configure exampleHost (Plugin.new String) ⟨⟨"example.org"⟩, "both"⟩).1
      = (some ⟨⟩, none) :=
  ⟨rfl, rfl⟩

/-- C8, amended: every configuration `Configure` accepts sets at least one of
`jwt.expression_string` and `jwt.expression_path`, and one that sets neither
is rejected with an InvalidArgument error.  One that sets the path, with or
without the inline string, is accepted with the content of the file as its
expression. -/
theorem Configure_requires_an_expression (h : Host Env Ast Prg Req Resp) (p : Plugin Prg)
    (req : ConfigureRequest) :
    (h.hclDecode req.HclConfiguration = .ok (none, none) →
      (Configure h p req).1 = (none, some ⟨.InvalidArgument,
        "you must have jwt.expression_string or jwt.expression_path defined."⟩)) ∧
    ((Configure h p req).1.2 = none →
      ∃ s path, h.hclDecode req.HclConfiguration = .ok (s, path) ∧
        (s ≠ none ∨ path ≠ none)) ∧
    (∀ s path, h.hclDecode req.HclConfiguration = .ok (s, some path) →
      (Configure h p req).1.2 = none →
      ∃ file data config, h.osOpen path = .ok file ∧ h.ioReadAll file = .ok data ∧
        (Configure h p req).2.config = some config ∧
        config.JWT.ExpressionString = some data ∧
        config.JWT.ExpressionPath = some path) := by
  refine ⟨?_, ?_, ?_⟩
  · intro hd
    simp only [Configure, hd, expressionSource, Errorf]
  · intro hok
    rcases Configure_cases h p req with
      ⟨st, _, hr⟩ | ⟨s, path, src, env, prg, hd, hs, _, _, _, hr⟩
    · rw [hr] at hok; cases hok
    · refine ⟨s, path, hd, ?_⟩
      cases s with
      | some str => exact Or.inl (by simp)
      | none =>
        cases path with
        | some q => exact Or.inr (by simp)
        | none => simp [expressionSource] at hs
  · intro s path hd hok
    rcases Configure_cases h p req with
      ⟨st, _, hr⟩ | ⟨s2, path2, src, env, prg, hd2, hs, _, _, _, hr⟩
    · rw [hr] at hok; cases hok
    · rw [hd] at hd2
      cases hd2
      cases ho : h.osOpen path with
      | error e => cases s <;> simp [expressionSource, ho] at hs
      | ok file =>
        cases hra : h.ioReadAll file with
        | error e => cases s <;> simp [expressionSource, ho, hra] at hs
        | ok data =>
          have hsrc : src = data := by
            cases s <;> simp [expressionSource, ho, hra] at hs <;> exact hs.symm
          subst hsrc
          exact ⟨file, _, _, rfl, hra, by rw [hr], rfl, rfl⟩

/-- C8, amended, at the configuration that sets both fields: the expression
installed is the content of the file, not the inline string. -/
theorem Configure_requires_an_expression_witness :
    ∃ file data config,
      exampleHost.osOpen "/etc/expr.cel" = .ok file ∧
      exampleHost.ioReadAll file = .ok data ∧
      (Configure exampleHost (Plugin.new String) ⟨⟨"example.org"⟩, "both"⟩).2.config
        = some config ∧
      config.JWT.ExpressionString = some data ∧
      config.JWT.ExpressionPath = some "/etc/expr.cel" :=
  (Configure_requires_an_expression exampleHost (Plugin.new String)
    ⟨⟨"example.org"⟩, "both"⟩).2.2 (some "request +") "/etc/expr.cel" rfl rfl

end PluginTheorems

/-! ## ComposeWorkloadJWTSVID -/

section ComposeTheorems

variable {Env Ast Prg Req Resp : Type}

/-- C6: on a plugin created by `main` on which no `Configure` call has
succeeded, `ComposeWorkloadJWTSVID` returns no response and the
FailedPrecondition error "not configured", and calls neither the logger nor
cel-go, so no expression is evaluated; the same holds of any plugin whose
configuration is nil.  `getConfig` reports "not configured" exactly when no
`Configure` call has succeeded, that is exactly when no configuration is
installed. -/
theorem ComposeWorkloadJWTSVID_not_configured
    (calls : List (Host Env Ast Prg Req Resp × ConfigureRequest))
    (h : Host Env Ast Prg Req Resp) (req : Req) :
    ((∀ e ∈ (configureAll (Plugin.new Prg) calls).1, e ≠ none) →
      ComposeWorkloadJWTSVID h (configureAll (Plugin.new Prg) calls).2 req
        = ((none, some ⟨.FailedPrecondition, "not configured"⟩), [])) ∧
    (∀ p : Plugin Prg, p.config = none →
      ComposeWorkloadJWTSVID h p req
        = ((none, some ⟨.FailedPrecondition, "not configured"⟩), [])) ∧
    (getConfig (configureAll (Plugin.new Prg) calls).2
        = .error ⟨.FailedPrecondition, "not configured"⟩ ↔
      ∀ e ∈ (configureAll (Plugin.new Prg) calls).1, e ≠ none) ∧
    (∀ p : Plugin Prg,
      getConfig p = .error ⟨.FailedPrecondition, "not configured"⟩ ↔ p.config = none) := by
  have hnil : ∀ p : Plugin Prg, p.config = none →
      ComposeWorkloadJWTSVID h p req
        = ((none, some ⟨.FailedPrecondition, "not configured"⟩), []) := by
    intro p hp
    simp only [ComposeWorkloadJWTSVID, getConfig, hp]
  have hall : (configureAll (Plugin.new Prg) calls).2.config = none ↔
      ∀ e ∈ (configureAll (Plugin.new Prg) calls).1, e ≠ none := by
    rw [configureAll_config_none]
    simp [Plugin.new]
  refine ⟨fun hf => hnil _ (hall.2 hf), hnil, ?_, getConfig_error_iff⟩
  rw [getConfig_error_iff, hall]

/-- C6, at a plugin whose two `Configure` calls both failed (no expression,
then an expression that does not compile). -/
theorem ComposeWorkloadJWTSVID_not_configured_witness :
    (∀ e ∈ (configureAll (Plugin.new String)
        [(exampleHost, ⟨⟨"example.org"⟩, "empty"⟩),
         (exampleHost, ⟨⟨"example.org"⟩, "inline-bad"⟩)]).1, e ≠ none) ∧
    ComposeWorkloadJWTSVID exampleHost
        (configureAll (Plugin.new String)
          [(exampleHost, ⟨⟨"example.org"⟩, "empty"⟩),
           (exampleHost, ⟨⟨"example.org"⟩, "inline-bad"⟩)]).2 "token"
      = ((none, some ⟨.FailedPrecondition, "not configured"⟩), []) :=
  ⟨by decide,
   (ComposeWorkloadJWTSVID_not_configured
      [(exampleHost, ⟨⟨"example.org"⟩, "empty"⟩),
       (exampleHost, ⟨⟨"example.org"⟩, "inline-bad"⟩)] exampleHost "token").1 (by decide)⟩

/-- C7: whenever `ComposeWorkloadJWTSVID` returns an error its response is
nil; it returns an error when no configuration is installed, when the
evaluation fails, and when the conversion of the result fails; and when it
returns no error the response is the value the conversion of the evaluation's
result produced, taken at the response type. -/
theorem ComposeWorkloadJWTSVID_no_partial_response (h : Host Env Ast Prg Req Resp)
    (p : Plugin Prg) (req : Req) :
    ((ComposeWorkloadJWTSVID h p req).1.2 ≠ none →
      (ComposeWorkloadJWTSVID h p req).1.1 = none) ∧
    (p.config = none →
      (ComposeWorkloadJWTSVID h p req).1
        = (none, some ⟨.FailedPrecondition, "not configured"⟩)) ∧
    (∀ config e, p.config = some config →
      h.Eval config.JWT.prg ⟨config.trustDomain, config.spiffeTrustDomain, req⟩ = .error e →
      (ComposeWorkloadJWTSVID h p req).1
        = (none, some ⟨.InvalidArgument, "Failed to evaluate cel expression: " ++ e⟩)) ∧
    (∀ config out e, p.config = some config →
      h.Eval config.JWT.prg ⟨config.trustDomain, config.spiffeTrustDomain, req⟩ = .ok out →
      h.ConvertToNative out = .error e →
      (ComposeWorkloadJWTSVID h p req).1
        = (none, some ⟨.InvalidArgument, "Failed to parse return type: " ++ e⟩)) ∧
    ((ComposeWorkloadJWTSVID h p req).1.2 = none →
      ∃ config out respn, p.config = some config ∧
        h.Eval config.JWT.prg ⟨config.trustDomain, config.spiffeTrustDomain, req⟩ = .ok out ∧
        h.ConvertToNative out = .ok respn ∧
        (ComposeWorkloadJWTSVID h p req).1.1 = asResponse respn) := by
  refine ⟨?_, ?_, ?_, ?_, ?_⟩
  · intro he
    cases hc : p.config with
    | none => simp only [ComposeWorkloadJWTSVID, getConfig, hc]
    | some config =>
      cases hev : h.Eval config.JWT.prg ⟨config.trustDomain, config.spiffeTrustDomain, req⟩ with
      | error e => simp only [ComposeWorkloadJWTSVID, getConfig, hc, hev]
      | ok out =>
        cases hcv : h.ConvertToNative out with
        | error e => simp only [ComposeWorkloadJWTSVID, getConfig, hc, hev, hcv]
        | ok respn =>
          simp only [ComposeWorkloadJWTSVID, getConfig, hc, hev, hcv] at he
          exact absurd rfl he
  · intro hc
    simp only [ComposeWorkloadJWTSVID, getConfig, hc]
  · intro config e hc hev
    simp only [ComposeWorkloadJWTSVID, getConfig, hc, hev, Errorf]
  · intro config out e hc hev hcv
    simp only [ComposeWorkloadJWTSVID, getConfig, hc, hev, hcv, Errorf]
  · intro hok
    cases hc : p.config with
    | none =>
      simp only [ComposeWorkloadJWTSVID, getConfig, hc] at hok
      cases hok
    | some config =>
      cases hev : h.Eval config.JWT.prg ⟨config.trustDomain, config.spiffeTrustDomain, req⟩ with
      | error e =>
        simp only [ComposeWorkloadJWTSVID, getConfig, hc, hev] at hok
        cases hok
      | ok out =>
        cases hcv : h.ConvertToNative out with
        | error e =>
          simp only [ComposeWorkloadJWTSVID, getConfig, hc, hev, hcv] at hok
          cases hok
        | ok respn =>
          refine ⟨config, out, respn, rfl, hev, hcv, ?_⟩
          simp only [ComposeWorkloadJWTSVID, getConfig, hc, hev, hcv]

/-- C7, at a configured plugin: an evaluation that fails, a result that does
not convert, and a request that goes through. -/
theorem ComposeWorkloadJWTSVID_no_partial_response_witness :
    (ComposeWorkloadJWTSVID exampleHost
        ⟨some ⟨⟨some "request", none, "request"⟩, "example.org", "spiffe://example.org"⟩⟩
        "").1
      = (none, some ⟨.InvalidArgument,
          "Failed to evaluate cel expression: " ++ "no such attribute"⟩) ∧
    (ComposeWorkloadJWTSVID exampleHost
        ⟨some ⟨⟨some "request", none, "request"⟩, "example.org", "spiffe://example.org"⟩⟩
        "map").1
      = (none, some ⟨.InvalidArgument,
          "Failed to parse return type: " ++ "type conversion error"⟩) ∧
    (∃ config out respn,
      (some ⟨⟨some "request", none, "request"⟩, "example.org", "spiffe://example.org"⟩
        : Option (Config String)) = some config ∧
      exampleHost.Eval config.JWT.prg ⟨config.trustDomain, config.spiffeTrustDomain, "token"⟩
        = .ok out ∧
      exampleHost.ConvertToNative out = .ok respn ∧
      (ComposeWorkloadJWTSVID exampleHost
        ⟨some ⟨⟨some "request", none, "request"⟩, "example.org", "spiffe://example.org"⟩⟩
        "token").1.1 = asResponse respn) ∧
    (ComposeWorkloadJWTSVID exampleHost
        ⟨some ⟨⟨some "request", none, "request"⟩, "example.org", "spiffe://example.org"⟩⟩
        "token").1 = (some "token", none) :=
  ⟨(ComposeWorkloadJWTSVID_no_partial_response exampleHost
      ⟨some ⟨⟨some "request", none, "request"⟩, "example.org", "spiffe://example.org"⟩⟩
      "").2.2.1 _ "no such attribute" rfl rfl,
   (ComposeWorkloadJWTSVID_no_partial_response exampleHost
      ⟨some ⟨⟨some "request", none, "request"⟩, "example.org", "spiffe://example.org"⟩⟩
      "map").2.2.2.1 _ (.map []) "type conversion error" rfl rfl rfl,
   (ComposeWorkloadJWTSVID_no_partial_response exampleHost
      ⟨some ⟨⟨some "request", none, "request"⟩, "example.org", "spiffe://example.org"⟩⟩
      "token").2.2.2.2 rfl,
   rfl⟩

end ComposeTheorems

end CelComposer
